import Mathlib

/-!
Verification development for the PPO trainer / intervention evaluator in
`src/rl/ppo/ppo_trainer.py`.  Each definition is a shallow embedding of the
corresponding Python code (line numbers in doc comments refer to that file);
machine floats are modelled by `ℚ`, tensors indexed per environment by lists,
and Python exceptions by `Except String`.
-/

namespace PPOTrainerModel

/-- Modelled from the spec: `linear_decay` is imported from `rl/common/utils.py`
(line 37), a file that is not part of the provided sources.  The spec defines
the decay scale factor as `max(0, 1 - updateIndex/totalUpdates)`. -/
def linear_decay (x T : ℚ) : ℚ := max 0 (1 - x / T)

/-- Clip parameter applied at update `u` under `use_linear_clip_decay`
(`train`, lines 390-393): `clip_param * linear_decay(update, NUM_UPDATES)`. -/
def clipParamAt (clip T u : ℚ) : ℚ := clip * linear_decay u T

/-- `PPOTrainer.get_action` (lines 490-494): scan the `act_to_idx` mapping in
order and return the first action name whose index equals `index`, else
`None`. -/
def get_action (index : ℤ) : List (String × ℤ) → Option String
  | [] => none
  | (action, idx) :: rest =>
      if idx = index then some action else get_action index rest

/-- The `act_to_idx` table of the E2E evaluation variant (line 609). -/
def actToIdxE2E : List (String × ℤ) :=
  [("forward", 0), ("up", 1), ("down", 2), ("tright", 3), ("tleft", 4),
   ("take", 5), ("put", 6), ("open", 7), ("close", 8)]

/-- The `act_to_idx` table of the HYBRID and OBCOV variants
(lines 880 and 1188). -/
def actToIdxHybrid : List (String × ℤ) :=
  [("forward", 0), ("up", 1), ("down", 2), ("tright", 3), ("tleft", 4),
   ("open", 5), ("close", 6)]

/-- Per-environment slice of the running episode statistics of
`_collect_rollout_step`: `count` and `reward` accumulators of
`running_episode_stats` and the `current_episode_reward` cell. -/
structure StatsState where
  count : ℚ
  reward : ℚ
  cur : ℚ
  deriving Repr, DecidableEq

/-- One `_collect_rollout_step` statistics update for a single environment
(lines 229-254): the mask is `0.0` if `done` else `1.0`; then
`current_episode_reward += rewards`,
`running_episode_stats["reward"] += (1 - masks) * current_episode_reward`,
`running_episode_stats["count"] += 1 - masks`, and finally
`current_episode_reward *= masks`. -/
def statsStep (s : StatsState) (r : ℚ) (done : Bool) : StatsState :=
  let mask : ℚ := if done then 0 else 1
  let cur := s.cur + r
  { count := s.count + (1 - mask)
    reward := s.reward + (1 - mask) * cur
    cur := cur * mask }

/-- Fold `statsStep` over a sequence of per-step `(reward, done)` pairs. -/
def statsRun (s : StatsState) : List (ℚ × Bool) → StatsState
  | [] => s
  | (r, d) :: rest => statsRun (statsStep s r d) rest

lemma statsRun_no_done (s : StatsState) (trace : List ℚ) :
    statsRun s (trace.map fun r => (r, false)) =
      { count := s.count, reward := s.reward, cur := s.cur + trace.sum } := by
  induction trace generalizing s with
  | nil => simp [statsRun]
  | cons r rest ih =>
      simp only [List.map_cons, statsRun, List.sum_cons]
      rw [ih]
      simp [statsStep]
      ring

lemma statsRun_append (s : StatsState) (l1 l2 : List (ℚ × Bool)) :
    statsRun s (l1 ++ l2) = statsRun (statsRun s l1) l2 := by
  induction l1 generalizing s with
  | nil => rfl
  | cons a rest ih =>
      cases a
      simp only [List.cons_append, statsRun]
      exact ih _

/-- Per-metric window delta computed by `train` (lines 418-425): a metric's
window is the deque of per-environment snapshot tensors (oldest first,
newest appended last); the delta is `(v[-1] - v[0]).sum()` when the window
holds more than one snapshot, else `v[0].sum()`. -/
def windowDelta (w : List (List ℚ)) : ℚ :=
  if 1 < w.length then
    (List.zipWith (fun a b => a - b) (w.getLastD []) (w.headD [])).sum
  else (w.headD []).sum

/-- Clamped count delta (line 426):
`deltas["count"] = max(deltas["count"], 1.0)`. -/
def reportCount (wc : List (List ℚ)) : ℚ := max (windowDelta wc) 1

/-- Reported smoothed reward (line 429): `deltas["reward"] / deltas["count"]`
after the clamp. -/
def reportedReward (wr wc : List (List ℚ)) : ℚ :=
  windowDelta wr / reportCount wc

lemma sum_zipWith_sub (xs ys : List ℚ) (h : xs.length = ys.length) :
    (List.zipWith (fun a b => a - b) xs ys).sum = xs.sum - ys.sum := by
  induction xs generalizing ys with
  | nil => cases ys <;> simp at h ⊢
  | cons x xs ih =>
      cases ys with
      | nil => simp at h
      | cons y ys =>
          simp only [List.zipWith_cons_cons, List.sum_cons]
          rw [ih ys (by simpa using h)]
          ring

/-- Per-episode trajectory record accumulated by the intervention evaluator
for environment slot 0 (`action_list`, `observation_list`, `metadata_list`,
`obj_cov_step`, `obj_pick_step`; initialized e.g. at lines 562-567).
Observation frames and metadata payloads are modelled by numeric
identifiers. -/
structure EpRecord where
  action_list : List String
  observation_list : List (ℕ × ℕ)
  metadata_list : List (ℕ × ℕ)
  obj_cov_step : List ℕ
  obj_pick_step : List ℕ
  deriving Repr, DecidableEq

/-- The cleared record state (all lists empty). -/
def EpRecord.empty : EpRecord := ⟨[], [], [], [], []⟩

/-- Environment-step data for environment 0 consumed by the intervention
branches: `dones[0]`, `infos[0]["success"]`, `rewards[0]`,
`infos[0]["prev_metadata"]`, `infos[0]["next_metadata"]`, and
`observations[0]`. -/
structure StepObs where
  done : Bool
  success : Bool
  reward : ℚ
  prev_metadata : ℕ
  next_metadata : ℕ
  obs : ℕ
  deriving Repr, DecidableEq

/-- Result dictionary of a single-environment `self.envs.act(name)` call:
`{success, prev_obs, next_obs, prev_metadata, next_metadata}` (observation
payloads modelled by their `"rgb"` frame identifier). -/
structure ActResult where
  success : Bool
  prev_obs : ℕ
  next_obs : ℕ
  prev_metadata : ℕ
  next_metadata : ℕ
  deriving Repr, DecidableEq

/-- Scripted single-environment `act` interface: `results` holds the
responses the environment will give to successive `act` calls (an exhausted
script responds with failure), `called` logs the action names of the calls
issued so far. -/
structure ActEnv where
  results : List ActResult
  called : List String
  deriving Repr, DecidableEq

/-- Issue one single-environment `act` call against the scripted
interface. -/
def ActEnv.doAct (e : ActEnv) (name : String) : ActResult × ActEnv :=
  (e.results.headD ⟨false, 0, 0, 0, 0⟩,
   ⟨e.results.tail, e.called ++ [name]⟩)

/-- Variant A (`E2E`) intervention branch (lines 624-651): on a non-terminal
step (`not dones[0]`) with `infos[0]["success"]`, when `rewards[0] == 1` and
the sampled action decodes to `"open"`, append the step count to
`obj_cov_step` and log the open event; when `rewards[0]` is `2` or `5` and
the sampled action decodes to `"take"`, record the step count as a pick
event (inside a redundant re-check of the decoded action) and log the take
event.  The branch issues no `self.envs.act` calls (the stall-recovery block
at lines 612-621 is commented out), which the second component records. -/
def e2eIntervention (rec : EpRecord) (prevObs0 : ℕ) (o : StepObs)
    (actionIdx : ℤ) (k : ℕ) : EpRecord × List String :=
  if o.done then (rec, [])
  else if o.success then
    let rec1 :=
      if o.reward = 1 ∧ get_action actionIdx actToIdxE2E = some "open" then
        { rec with
          obj_cov_step := rec.obj_cov_step ++ [k]
          action_list := rec.action_list ++ ["open"]
          observation_list := rec.observation_list ++ [(prevObs0, o.obs)]
          metadata_list :=
            rec.metadata_list ++ [(o.prev_metadata, o.next_metadata)] }
      else rec
    let rec2 :=
      if (o.reward = 2 ∨ o.reward = 5) ∧
          get_action actionIdx actToIdxE2E = some "take" then
        let rec2a :=
          if get_action actionIdx actToIdxE2E = some "take" then
            { rec1 with obj_pick_step := rec1.obj_pick_step ++ [k] }
          else rec1
        { rec2a with
          action_list := rec2a.action_list ++ ["take"]
          observation_list := rec2a.observation_list ++ [(prevObs0, o.obs)]
          metadata_list :=
            rec2a.metadata_list ++ [(o.prev_metadata, o.next_metadata)] }
      else rec1
    (rec2, [])
  else (rec, [])

/-- Variant C (`OBCOV`) intervention branch (lines 1194-1235): on a
non-terminal step with `rewards[0] == 1`, append the step count to
`obj_cov_step`, then issue `act("open")` (logging the open event only on
success), `act("take")` (logging the pick event only on success),
`act("put")` and `act("close")` unconditionally, and finally re-step the
vectorized batch with the originally sampled `actions` (line 1224), returned
as the third component. -/
def obcovIntervention (rec : EpRecord) (env : ActEnv) (done0 : Bool)
    (reward0 : ℚ) (k : ℕ) (sampledAction : ℤ) :
    EpRecord × ActEnv × Option ℤ :=
  if done0 then (rec, env, none)
  else if reward0 = 1 then
    let rec0 := { rec with obj_cov_step := rec.obj_cov_step ++ [k] }
    let res1 := env.doAct "open"
    let rec1 :=
      if res1.1.success then
        { rec0 with
          action_list := rec0.action_list ++ ["open"]
          observation_list :=
            rec0.observation_list ++ [(res1.1.prev_obs, res1.1.next_obs)]
          metadata_list :=
            rec0.metadata_list ++
              [(res1.1.prev_metadata, res1.1.next_metadata)] }
      else rec0
    let res2 := res1.2.doAct "take"
    let rec2 :=
      if res2.1.success then
        { rec1 with
          obj_pick_step := rec1.obj_pick_step ++ [k]
          action_list := rec1.action_list ++ ["take"]
          observation_list :=
            rec1.observation_list ++ [(res2.1.prev_obs, res2.1.next_obs)]
          metadata_list :=
            rec1.metadata_list ++
              [(res2.1.prev_metadata, res2.1.next_metadata)] }
      else rec1
    let res3 := res2.2.doAct "put"
    let res4 := res3.2.doAct "close"
    (rec2, res4.2, some sampledAction)
  else (rec, env, none)

/-- Variant B (`HYBRID`) intervention branch (lines 895-928).  `infoVar`
models the Python local variable `info`: `none` when it has not been
assigned yet, in which case evaluating `info["prev_metadata"]` at line 912
raises `NameError`; otherwise it holds the result of the most recent
`self.envs.act` call assigned to it, namely the `act("put")` result of the
previous successful step.  On a non-terminal step with
`infos[0]["success"]`, when the sampled action decodes to `"open"` and
`rewards[0] == 1` the open event is logged with metadata read from `info`;
then `act("take")` is issued (logging the pick event only on success),
followed by `act("put")` (assigned to `info`) and `act("close")`. -/
def hybridIntervention (rec : EpRecord) (infoVar : Option ActResult)
    (env : ActEnv) (prevObs0 : ℕ) (o : StepObs) (actionIdx : ℤ) (k : ℕ) :
    Except String (EpRecord × Option ActResult × ActEnv) :=
  if o.done then .ok (rec, infoVar, env)
  else if o.success then
    let logOpen : Except String EpRecord :=
      if get_action actionIdx actToIdxHybrid = some "open" then
        if o.reward = 1 then
          match infoVar with
          | none => .error "NameError"
          | some iv =>
              .ok { rec with
                obj_cov_step := rec.obj_cov_step ++ [k]
                action_list := rec.action_list ++ ["open"]
                observation_list := rec.observation_list ++ [(prevObs0, o.obs)]
                metadata_list :=
                  rec.metadata_list ++ [(iv.prev_metadata, iv.next_metadata)] }
        else .ok rec
      else .ok rec
    match logOpen with
    | .error e => .error e
    | .ok rec1 =>
      let res1 := env.doAct "take"
      let rec2 :=
        if res1.1.success then
          { rec1 with
            obj_pick_step := rec1.obj_pick_step ++ [k]
            action_list := rec1.action_list ++ ["take"]
            observation_list :=
              rec1.observation_list ++ [(res1.1.prev_obs, res1.1.next_obs)]
            metadata_list :=
              rec1.metadata_list ++
                [(res1.1.prev_metadata, res1.1.next_metadata)] }
        else rec1
      let res2 := res1.2.doAct "put"
      let res3 := res2.2.doAct "close"
      .ok (rec2, some res2.1, res3.2)
  else .ok (rec, infoVar, env)

/-- A concrete scripted `act` interface for exercising the HYBRID branch:
three successful responses (for `take`, `put`, `close`). -/
def hybridBugEnv : ActEnv :=
  ⟨[⟨true, 30, 31, 32, 33⟩, ⟨true, 40, 41, 42, 43⟩,
    ⟨true, 50, 51, 52, 53⟩], []⟩

/-- State of the shared evaluation loop skeleton that is relevant to its
guard (lines 571-574, repeated identically at 842-845 and 1121-1124):
`statsCount` is `len(stats_episodes)`, `numEnvs` is `self.envs.num_envs`,
`artifacts` counts trajectory-artifact file writes, `stepCount` mirrors
`step_count`, `curReward` is `current_episode_reward[0]`. -/
structure EvalLoopState where
  statsCount : ℕ
  numEnvs : ℕ
  artifacts : ℕ
  stepCount : ℕ
  curReward : ℚ
  deriving Repr, DecidableEq

/-- Evaluation loop guard:
`len(stats_episodes) < TEST_EPISODE_COUNT and self.envs.num_envs > 0`. -/
def evalGuard (target : ℕ) (s : EvalLoopState) : Bool :=
  decide (s.statsCount < target) && decide (0 < s.numEnvs)

/-- Effect of one iteration of the evaluation loop body on the
guard-relevant state, for an environment-0 step returning reward `r` and
done flag `d`: `step_count` increments (line 601); on `dones[0]` the
accumulated record is serialized to an artifact file (lines 655-668);
`current_episode_reward` accumulates `r` (line 681).  `stats_episodes` is
never written — the episode-recording block (lines 692-735) is commented
out — and `envs_to_pause` stays `[]` (line 689; the loop that would fill it
is commented out), so `_pause_envs` leaves the active batch unchanged and
`num_envs` is constant. -/
def evalIter (s : EvalLoopState) (r : ℚ) (d : Bool) : EvalLoopState :=
  { statsCount := s.statsCount
    numEnvs := s.numEnvs
    artifacts := if d then s.artifacts + 1 else s.artifacts
    stepCount := s.stepCount + 1
    curReward := s.curReward + r }

/-- State after `n` iterations of the evaluation loop against a scripted
environment described by per-step reward and done traces. -/
def evalStateAt (init : EvalLoopState) (traceR : ℕ → ℚ) (traceD : ℕ → Bool) :
    ℕ → EvalLoopState
  | 0 => init
  | n + 1 => evalIter (evalStateAt init traceR traceD n) (traceR n) (traceD n)

/-- Aggregation at loop exit (lines 758-768):
`sum(v["reward"] for v in stats_episodes.values()) / num_episodes`, which in
Python raises `ZeroDivisionError` when `stats_episodes` is empty. -/
def aggregateReward (stats : List ℚ) : Except String ℚ :=
  if stats.length = 0 then .error "ZeroDivisionError"
  else .ok (stats.sum / stats.length)

/-- Done trace of a scripted environment whose episodes end on every third
step (`done=true` on step 3 of each episode). -/
def doneEveryThird (n : ℕ) : Bool := decide (n % 3 = 2)

/-- `PPOTrainer.load_checkpoint` (lines 128-139) delegates to `torch.load`,
which raises `FileNotFoundError` when the path names no file and otherwise
returns the unpickled stored object (the checkpoint dictionary; in
particular it returns `None` only if `None` itself was pickled at that
path).  The file system is modelled by the optional content stored at the
configured path. -/
def load_checkpoint (file : Option (Option ℕ)) : Except String (Option ℕ) :=
  match file with
  | some content => .ok content
  | none => .error "FileNotFoundError"

/-- Outcome of the evaluator's policy-initialization phase. -/
inductive EvalInit where
  | loadedCheckpoint (d : ℕ)
  | warnedUntrained
  deriving Repr, DecidableEq

/-- Checkpoint phase of `eval` (lines 509-526, repeated identically at
782-799 and 1061-1078): `ckpt_dict = self.load_checkpoint(self.config.LOAD,
map_location="cpu")`, then `if ckpt_dict is not None:
self.agent.load_state_dict(...)` else `logger.info('NO CHECKPOINT
LOADED!')`.  An exception raised by `load_checkpoint` propagates; the
warning branch fires only when the returned dictionary itself is `None`. -/
def evalInitPolicy (file : Option (Option ℕ)) : Except String EvalInit :=
  match load_checkpoint file with
  | .error e => .error e
  | .ok (some d) => .ok (EvalInit.loadedCheckpoint d)
  | .ok none => .ok EvalInit.warnedUntrained

/-- Checkpoint phase of `train` (lines 339-342): loading is skipped when
`config.LOAD` is `None`, otherwise `load_checkpoint` is called on the
configured path and the state dict is installed.  Returns whether a
checkpoint was loaded. -/
def trainInitPolicy (configLOAD : Option (Option (Option ℕ))) :
    Except String Bool :=
  match configLOAD with
  | none => .ok false
  | some file => (load_checkpoint file).map fun _ => true

end PPOTrainerModel

namespace PPOTrainerModel

/-- C8: the linear decay factor satisfies `decay(0,T) = 1`, `decay(T,T) = 0`,
equals `max(0, 1 - x/T)` everywhere, is non-increasing, `decay(5,10) = 1/2`,
and consequently the clip parameter `clip_param * decay(u,T)` set each update
under `use_linear_clip_decay` is non-increasing over updates. -/
theorem linear_decay_spec (T : ℚ) (hT : 0 < T) :
    linear_decay 0 T = 1 ∧
    linear_decay T T = 0 ∧
    (∀ x : ℚ, linear_decay x T = max 0 (1 - x / T)) ∧
    (∀ x y : ℚ, x ≤ y → linear_decay y T ≤ linear_decay x T) ∧
    linear_decay 5 10 = 1 / 2 ∧
    (∀ clip u v : ℚ, 0 ≤ clip → u ≤ v →
      clipParamAt clip T v ≤ clipParamAt clip T u) := by
  have hmono : ∀ x y : ℚ, x ≤ y → linear_decay y T ≤ linear_decay x T := by
    intro x y hxy
    have hdiv : x / T ≤ y / T := div_le_div_of_nonneg_right hxy hT.le
    exact max_le_max le_rfl (by linarith)
  refine ⟨?_, ?_, fun x => rfl, hmono, ?_, ?_⟩
  · simp [linear_decay]
  · simp [linear_decay, div_self (ne_of_gt hT)]
  · norm_num [linear_decay]
  · intro clip u v hclip huv
    exact mul_le_mul_of_nonneg_left (hmono u v huv) hclip

/-- Closed witness for `linear_decay_spec` at `T = 10`. -/
theorem linear_decay_spec_witness :
    linear_decay 0 10 = 1 ∧ linear_decay 10 10 = 0 ∧
    linear_decay 5 10 = 1 / 2 := by
  obtain ⟨h0, hT, -, -, h5, -⟩ := linear_decay_spec 10 (by norm_num)
  exact ⟨h0, hT, h5⟩

/-- C10: `get_action` returns an action name mapped to the given index when
one exists in the table, and returns `None` (rather than raising) when no
entry of the mapping has that index. -/
theorem get_action_spec (index : ℤ) (m : List (String × ℤ)) :
    ((∃ p ∈ m, p.2 = index) →
      ∃ name, get_action index m = some name ∧ (name, index) ∈ m) ∧
    ((∀ p ∈ m, p.2 ≠ index) → get_action index m = none) := by
  induction m with
  | nil => exact ⟨fun ⟨p, hp, _⟩ => absurd hp (List.not_mem_nil p), fun _ => rfl⟩
  | cons hd tl ih =>
      constructor
      · rintro ⟨p, hp, hpi⟩
        by_cases h : hd.2 = index
        · refine ⟨hd.1, ?_, ?_⟩
          · simp [get_action, h]
          · have hpair : (hd.1, index) = hd := by rw [← h]
            rw [hpair]
            exact List.mem_cons_self hd tl
        · have hmem : p ∈ tl := by
            rcases List.mem_cons.mp hp with rfl | htl
            · exact absurd hpi h
            · exact htl
          obtain ⟨name, hget, hmem2⟩ := ih.1 ⟨p, hmem, hpi⟩
          refine ⟨name, ?_, List.mem_cons_of_mem _ hmem2⟩
          simpa [get_action, h] using hget
      · intro hnone
        have hhd : hd.2 ≠ index := hnone hd (List.mem_cons_self hd tl)
        have htl := ih.2 fun p hp => hnone p (List.mem_cons_of_mem _ hp)
        simpa [get_action, hhd] using htl

/-- Closed witness for `get_action_spec` on the E2E action table: index 7
decodes to an entry mapped to 7, index 42 decodes to `none`. -/
theorem get_action_spec_witness :
    (∃ name, get_action 7 actToIdxE2E = some name ∧
      (name, 7) ∈ actToIdxE2E) ∧
    get_action 42 actToIdxE2E = none :=
  ⟨(get_action_spec 7 actToIdxE2E).1 ⟨("open", 7), by decide, rfl⟩,
   (get_action_spec 42 actToIdxE2E).2 (by decide)⟩

/-- C6: one statistics update increases the `count` accumulator by exactly 1
at a step whose done mask transitions to 0 and leaves it unchanged otherwise
(so it is monotonically non-decreasing); starting from a state reached right
after an episode boundary (cumulative reward 0), running any sequence of
non-terminal steps followed by a terminal step adds exactly the sum of the
rewards received since the previous transition to the `reward` accumulator,
adds 1 to `count`, and zeroes the per-environment cumulative episode
reward. -/
theorem stats_update_spec :
    (∀ (s : StatsState) (r : ℚ) (d : Bool),
      (statsStep s r d).count = s.count + (if d then 1 else 0) ∧
      (statsStep s r d).reward = s.reward + (if d then s.cur + r else 0) ∧
      (statsStep s r d).cur = (if d then 0 else s.cur + r) ∧
      s.count ≤ (statsStep s r d).count) ∧
    (∀ (count0 reward0 : ℚ) (trace : List ℚ) (r : ℚ),
      statsRun ⟨count0, reward0, 0⟩
          ((trace.map fun x => (x, false)) ++ [(r, true)]) =
        ⟨count0 + 1, reward0 + (trace.sum + r), 0⟩) := by
  constructor
  · intro s r d
    cases d <;> simp [statsStep]
  · intro count0 reward0 trace r
    rw [statsRun_append, statsRun_no_done]
    simp [statsRun, statsStep]

end PPOTrainerModel

namespace PPOTrainerModel

/-- C7: for every state of the sliding window of episode-stats snapshots,
the reported smoothed metric divides the reward window delta by the count
delta clamped below at 1 (so the division never uses a count delta less
than 1); the delta equals newest-minus-oldest summed across environments
when the window holds more than one snapshot, else the single snapshot
summed across environments. -/
theorem windowed_report_spec (wr wc : List (List ℚ)) :
    1 ≤ reportCount wc ∧
    reportedReward wr wc = windowDelta wr / max (windowDelta wc) 1 ∧
    (∀ v0 vl, wr.head? = some v0 → wr.getLast? = some vl →
      v0.length = vl.length → 1 < wr.length →
      windowDelta wr = vl.sum - v0.sum) ∧
    (∀ v : List ℚ, wr = [v] → windowDelta wr = v.sum) := by
  refine ⟨le_max_right _ _, rfl, ?_, ?_⟩
  · intro v0 vl h0 hl hlen hgt
    have hhead : wr.headD [] = v0 := by
      rw [List.headD_eq_head?, h0]
      rfl
    have hlast : wr.getLastD [] = vl := by
      rw [List.getLastD_eq_getLast?, hl]
      rfl
    rw [windowDelta, if_pos hgt, hhead, hlast,
      sum_zipWith_sub vl v0 hlen.symm]
  · rintro v rfl
    simp [windowDelta]

/-- Closed witness for `windowed_report_spec`: a two-snapshot window over
two environments. -/
theorem windowed_report_spec_witness :
    1 ≤ reportCount [[0], [3]] ∧
    windowDelta [[1, 2], [4, 8]] =
      ([4, 8] : List ℚ).sum - ([1, 2] : List ℚ).sum := by
  obtain ⟨hclamp, -, hdelta, -⟩ :=
    windowed_report_spec [[1, 2], [4, 8]] [[0], [3]]
  exact ⟨hclamp, hdelta [1, 2] [4, 8] rfl rfl rfl (by norm_num)⟩

/-- C5: in Variant A (`E2E`), on every non-terminal successful step of
environment 0, a sampled action decoding to `"open"` with reward equal to
the opened-container signal appends the step count to `objCovStep` and
`"open"` to `actionList` at the corresponding position; a sampled action
decoding to `"take"` with reward equal to one of the two object-acquired
signals appends the step count to `objPickStep` and logs a take event; and
the branch never issues a single-environment `act` call. -/
theorem e2e_variant_spec (rec : EpRecord) (p : ℕ) (o : StepObs) (a : ℤ)
    (k : ℕ) (hnd : o.done = false) (hs : o.success = true) :
    (o.reward = 1 → get_action a actToIdxE2E = some "open" →
      (e2eIntervention rec p o a k).1.obj_cov_step =
        rec.obj_cov_step ++ [k] ∧
      (e2eIntervention rec p o a k).1.action_list =
        rec.action_list ++ ["open"]) ∧
    ((o.reward = 2 ∨ o.reward = 5) → get_action a actToIdxE2E = some "take" →
      (e2eIntervention rec p o a k).1.obj_pick_step =
        rec.obj_pick_step ++ [k] ∧
      (e2eIntervention rec p o a k).1.action_list =
        rec.action_list ++ ["take"]) ∧
    (∀ (rec' : EpRecord) (p' : ℕ) (o' : StepObs) (a' : ℤ) (k' : ℕ),
      (e2eIntervention rec' p' o' a' k').2 = []) := by
  refine ⟨?_, ?_, ?_⟩
  · intro hr hact
    have hnottake : get_action a actToIdxE2E ≠ some "take" := by
      rw [hact]; intro hcon; simp at hcon
    simp [e2eIntervention, hnd, hs, hr, hact, hnottake]
  · intro hr hact
    have hopenne : get_action a actToIdxE2E ≠ some "open" := by
      rw [hact]; intro hcon; simp at hcon
    rcases hr with h | h <;>
      norm_num [e2eIntervention, hnd, hs, h, hact, hopenne]
  · intro rec' p' o' a' k'
    rw [e2eIntervention]
    split <;> try rfl
    split <;> rfl

/-- Closed witness for `e2e_variant_spec`: a successful open at step 3 with
reward 1 under sampled action index 7. -/
theorem e2e_variant_spec_witness :
    (e2eIntervention EpRecord.empty 9
      ⟨false, true, 1, 10, 11, 20⟩ 7 3).1.obj_cov_step = [3] ∧
    (e2eIntervention EpRecord.empty 9
      ⟨false, true, 1, 10, 11, 20⟩ 7 3).1.action_list = ["open"] := by
  have h := (e2e_variant_spec EpRecord.empty 9
    ⟨false, true, 1, 10, 11, 20⟩ 7 3 rfl rfl).1 rfl (by decide)
  simpa using h

/-- C3: in Variant C (`OBCOV`), on every non-terminal step of environment 0
whose reward equals the visible-target signal, exactly four
single-environment `act` calls are issued in the order `open`, `take`,
`put`, `close` — regardless of whether the open or take responses succeed,
since the environment script here is arbitrary — the step count is recorded
in `objCovStep`, and the vectorized batch is afterwards re-stepped with the
originally sampled action. -/
theorem obcov_variant_spec (rec : EpRecord) (env : ActEnv) (r : ℚ) (k : ℕ)
    (a : ℤ) (hr : r = 1) :
    (obcovIntervention rec env false r k a).2.1.called =
      env.called ++ ["open", "take", "put", "close"] ∧
    k ∈ (obcovIntervention rec env false r k a).1.obj_cov_step ∧
    (obcovIntervention rec env false r k a).2.2 = some a := by
  subst hr
  refine ⟨?_, ?_, ?_⟩
  · simp [obcovIntervention, ActEnv.doAct]
  · simp [obcovIntervention, apply_ite EpRecord.obj_cov_step]
  · simp [obcovIntervention]

/-- Closed witness for `obcov_variant_spec`: reward 1 at step 2 against a
script whose open and take both fail. -/
theorem obcov_variant_spec_witness :
    (obcovIntervention EpRecord.empty
        ⟨[⟨false, 1, 2, 3, 4⟩, ⟨false, 5, 6, 7, 8⟩,
          ⟨true, 0, 0, 0, 0⟩, ⟨true, 0, 0, 0, 0⟩], []⟩
        false 1 2 5).2.1.called = ["open", "take", "put", "close"] ∧
    2 ∈ (obcovIntervention EpRecord.empty
        ⟨[⟨false, 1, 2, 3, 4⟩, ⟨false, 5, 6, 7, 8⟩,
          ⟨true, 0, 0, 0, 0⟩, ⟨true, 0, 0, 0, 0⟩], []⟩
        false 1 2 5).1.obj_cov_step ∧
    (obcovIntervention EpRecord.empty
        ⟨[⟨false, 1, 2, 3, 4⟩, ⟨false, 5, 6, 7, 8⟩,
          ⟨true, 0, 0, 0, 0⟩, ⟨true, 0, 0, 0, 0⟩], []⟩
        false 1 2 5).2.2 = some 5 := by
  have h := obcov_variant_spec EpRecord.empty
    ⟨[⟨false, 1, 2, 3, 4⟩, ⟨false, 5, 6, 7, 8⟩,
      ⟨true, 0, 0, 0, 0⟩, ⟨true, 0, 0, 0, 0⟩], []⟩ 1 2 5 rfl
  simpa using h

/-- C4: the open event of Variant B (`HYBRID`) is NOT logged with the
current step's metadata pair as the claim states.  Line 912 reads the local
variable `info`, which at that point is unassigned on the first successful
open step of a run (Python raises `NameError`, first conjunct) and
otherwise still holds the `act("put")` result of the previous successful
step, whose stale metadata pair `(77, 78)` — not the step's own
`(10, 11)` — is what gets logged (second and third conjuncts; the remainder
of the probe behaves as claimed: `take` is issued and its success logs the
pick event, then `put` and `close` are issued). -/
theorem hybrid_metadata_bug :
    hybridIntervention EpRecord.empty none hybridBugEnv 9
        ⟨false, true, 1, 10, 11, 20⟩ 5 1 = .error "NameError" ∧
    hybridIntervention EpRecord.empty (some ⟨true, 70, 71, 77, 78⟩)
        hybridBugEnv 9 ⟨false, true, 1, 10, 11, 20⟩ 5 1 =
      .ok (⟨["open", "take"], [(9, 20), (30, 31)], [(77, 78), (32, 33)],
            [1], [1]⟩,
           some ⟨true, 40, 41, 42, 43⟩, ⟨[], ["take", "put", "close"]⟩) ∧
    ((77 : ℕ), (78 : ℕ)) ≠ ((10 : ℕ), (11 : ℕ)) :=
  ⟨rfl, rfl, by decide⟩

/-- C1: the evaluation loop of every variant cannot terminate.  Starting
from a fresh run with one environment and target episode count 1, after any
number of iterations against any scripted environment the completed-episode
count is still 0, the active-environment count is still 1, and the loop
guard still holds — in particular for the scripted environment that ends an
episode on every third step, which keeps producing an artifact write every
3 steps instead of stopping after one; and were the loop ever exited with
zero completed episodes, the aggregate mean reward would raise
`ZeroDivisionError`. -/
theorem eval_loop_bug :
    (∀ (traceR : ℕ → ℚ) (traceD : ℕ → Bool) (n : ℕ),
      (evalStateAt ⟨0, 1, 0, 0, 0⟩ traceR traceD n).statsCount = 0 ∧
      (evalStateAt ⟨0, 1, 0, 0, 0⟩ traceR traceD n).numEnvs = 1 ∧
      evalGuard 1 (evalStateAt ⟨0, 1, 0, 0, 0⟩ traceR traceD n) = true) ∧
    (∀ (traceR : ℕ → ℚ) (n : ℕ),
      (evalStateAt ⟨0, 1, 0, 0, 0⟩ traceR doneEveryThird n).artifacts =
        n / 3) ∧
    aggregateReward [] = .error "ZeroDivisionError" := by
  have hconst : ∀ (traceR : ℕ → ℚ) (traceD : ℕ → Bool) (n : ℕ),
      (evalStateAt ⟨0, 1, 0, 0, 0⟩ traceR traceD n).statsCount = 0 ∧
      (evalStateAt ⟨0, 1, 0, 0, 0⟩ traceR traceD n).numEnvs = 1 := by
    intro traceR traceD n
    induction n with
    | zero => exact ⟨rfl, rfl⟩
    | succ m ih => simpa [evalStateAt, evalIter] using ih
  refine ⟨?_, ?_, rfl⟩
  · intro traceR traceD n
    obtain ⟨h1, h2⟩ := hconst traceR traceD n
    exact ⟨h1, h2, by simp [evalGuard, h1, h2]⟩
  · intro traceR n
    induction n with
    | zero => rfl
    | succ m ih =>
        by_cases hm : m % 3 = 2 <;>
          simp [evalStateAt, evalIter, doneEveryThird, hm, ih] <;> omega

/-- C2: when the checkpoint file named by the configuration is absent, the
evaluator does NOT log a warning and proceed with an untrained policy: the
`torch.load` inside `load_checkpoint` raises before the `is not None` check
is reached, so `eval` propagates `FileNotFoundError` exactly like the
training path does when a checkpoint required for resume is missing; the
warning branch is reachable only for a present file whose pickled content
is itself `None`. -/
theorem eval_missing_checkpoint_raises :
    evalInitPolicy none = .error "FileNotFoundError" ∧
    (∀ d : ℕ, evalInitPolicy (some (some d)) =
      .ok (EvalInit.loadedCheckpoint d)) ∧
    evalInitPolicy (some none) = .ok EvalInit.warnedUntrained ∧
    trainInitPolicy (some none) = .error "FileNotFoundError" :=
  ⟨rfl, fun _ => rfl, rfl, rfl⟩

end PPOTrainerModel

namespace PPOTrainerModel

/-- Values appearing in an environment info dictionary, as consumed by
`_extract_scalars_from_info`: a numeric value of numpy size 1, a string
(numpy size 1 as well, but explicitly banned at line 164), a numeric array
whose numpy size is its length, or a nested dictionary. -/
inductive InfoVal where
  | scalar (x : ℚ)
  | str (s : String)
  | arr (xs : List ℚ)
  | dict (kvs : List (String × InfoVal))

/-- `PPOTrainer.METRICS_BLACKLIST` (line 141). -/
def METRICS_BLACKLIST : List String :=
  ["top_down_map", "collisions.is_collision"]

/-- `np.size(v)` of an info value. -/
def npSize : InfoVal → ℕ
  | .scalar _ => 1
  | .str _ => 1
  | .arr xs => xs.length
  | .dict _ => 1

/-- `isinstance(v, str)`. -/
def InfoVal.isStr : InfoVal → Bool
  | .str _ => true
  | _ => false

/-- `isinstance(v, dict)`. -/
def InfoVal.isDict : InfoVal → Bool
  | .dict _ => true
  | _ => false

/-- `float(v)` for a non-dict value that passes the inclusion test
`np.size(v) == 1 and not isinstance(v, str)` (line 164); `none` when the
test fails. -/
def scalarLike : InfoVal → Option ℚ
  | .scalar x => some x
  | .arr [x] => some x
  | _ => none

/-- Python dict entry assignment `result[k] = x`, which is also what each
entry of `result.update(...)` performs: replace the value in place if the
key is present (insertion order is kept), else append. -/
def insertEntry (res : List (String × ℚ)) (e : String × ℚ) :
    List (String × ℚ) :=
  match res with
  | [] => [e]
  | (k, x) :: rest =>
      if k = e.1 then (k, e.2) :: rest else (k, x) :: insertEntry rest e

mutual

/-- `PPOTrainer._extract_scalars_from_info` (lines 143-167), with the info
dictionary modelled as an ordered association list. -/
def extract_scalars_from_info : List (String × InfoVal) → List (String × ℚ) :=
  fun kvs => extractAux [] kvs

/-- Loop of `_extract_scalars_from_info` threading the `result` dictionary:
skip blacklisted keys; for a dict value, recurse and fold the
`.`-joined, blacklist-filtered sub-entries into `result` via
`result.update`; otherwise assign `result[k] = float(v)` exactly when the
value is scalar-like and not a string. -/
def extractAux (res : List (String × ℚ)) :
    List (String × InfoVal) → List (String × ℚ)
  | [] => res
  | (k, v) :: rest =>
      if k ∈ METRICS_BLACKLIST then extractAux res rest
      else
        match v with
        | .dict sub =>
            let subres := extract_scalars_from_info sub
            let merged := subres.filterMap fun p =>
              if (k ++ "." ++ p.1) ∈ METRICS_BLACKLIST then none
              else some (k ++ "." ++ p.1, p.2)
            extractAux (merged.foldl insertEntry res) rest
        | v =>
            match scalarLike v with
            | some x => extractAux (insertEntry res (k, x)) rest
            | none => extractAux res rest

end

/-- Declarative description of the extraction, following the spec: the
blacklist-filtered fields that reduce to a single numeric value, in order,
recursing into nested mapping-valued fields with keys joined by `.`. -/
def extractSpec : List (String × InfoVal) → List (String × ℚ)
  | [] => []
  | (k, v) :: rest =>
      (if k ∈ METRICS_BLACKLIST then []
       else
         match v with
         | .dict sub =>
             (extractSpec sub).filterMap fun p =>
               if (k ++ "." ++ p.1) ∈ METRICS_BLACKLIST then none
               else some (k ++ "." ++ p.1, p.2)
         | v =>
             match scalarLike v with
             | some x => [(k, x)]
             | none => []) ++ extractSpec rest

lemma insertEntry_of_not_mem (res : List (String × ℚ)) (e : String × ℚ)
    (h : e.1 ∉ res.map Prod.fst) : insertEntry res e = res ++ [e] := by
  induction res with
  | nil => rfl
  | cons a rest ih =>
      have hne : a.1 ≠ e.1 := by
        intro hcon
        exact h (by simp [← hcon])
      simp only [insertEntry, if_neg hne, List.cons_append]
      rw [ih fun hcon => h (by simp [hcon])]

lemma foldl_insertEntry_of_fresh (l res : List (String × ℚ))
    (hdisj : ∀ e ∈ l, e.1 ∉ res.map Prod.fst)
    (hnd : (l.map Prod.fst).Nodup) :
    List.foldl insertEntry res l = res ++ l := by
  induction l generalizing res with
  | nil => simp
  | cons e l ih =>
      simp only [List.map_cons, List.nodup_cons] at hnd
      simp only [List.foldl_cons]
      rw [insertEntry_of_not_mem res e (hdisj e (List.mem_cons_self e l)),
        ih (res ++ [e]) ?_ hnd.2]
      · simp
      · intro e' he'
        have h1 : e'.1 ∉ res.map Prod.fst :=
          hdisj e' (List.mem_cons_of_mem _ he')
        have h2 : e'.1 ≠ e.1 := by
          intro hcon
          exact hnd.1 (hcon ▸ List.mem_map_of_mem Prod.fst he')
        simp [h1, h2]

/-- Key-collision freedom of an info dictionary: at every nesting level the
joined keys produced by the extraction are pairwise distinct, so Python's
dict-update overwriting never discards an entry.  (Real info dictionaries
satisfy this because dict keys are unique at each level.) -/
def subWF : List (String × InfoVal) → Bool
  | [] => true
  | (_, .dict sub) :: rest =>
      (decide (((extractSpec sub).map Prod.fst).Nodup) && subWF sub) &&
        subWF rest
  | _ :: rest => subWF rest

/-- Well-formed info dictionary: collision-free at the top level and at
every nested level. -/
def wfInfo (kvs : List (String × InfoVal)) : Bool :=
  decide (((extractSpec kvs).map Prod.fst).Nodup) && subWF kvs

lemma extractAux_nil (res : List (String × ℚ)) : extractAux res [] = res := by
  rw [extractAux.eq_def]

lemma extractAux_cons (res : List (String × ℚ)) (k : String) (v : InfoVal)
    (rest : List (String × InfoVal)) :
    extractAux res ((k, v) :: rest) =
      if k ∈ METRICS_BLACKLIST then extractAux res rest
      else
        match v with
        | .dict sub =>
            extractAux
              (List.foldl insertEntry res
                ((extract_scalars_from_info sub).filterMap fun p =>
                  if (k ++ "." ++ p.1) ∈ METRICS_BLACKLIST then none
                  else some (k ++ "." ++ p.1, p.2))) rest
        | v =>
            match scalarLike v with
            | some x => extractAux (insertEntry res (k, x)) rest
            | none => extractAux res rest := by
  rw [extractAux.eq_def]

lemma extractSpec_nil : extractSpec [] = [] := by
  rw [extractSpec.eq_def]

lemma extractSpec_cons (k : String) (v : InfoVal)
    (rest : List (String × InfoVal)) :
    extractSpec ((k, v) :: rest) =
      (if k ∈ METRICS_BLACKLIST then []
       else
         match v with
         | .dict sub =>
             (extractSpec sub).filterMap fun p =>
               if (k ++ "." ++ p.1) ∈ METRICS_BLACKLIST then none
               else some (k ++ "." ++ p.1, p.2)
         | v =>
             match scalarLike v with
             | some x => [(k, x)]
             | none => []) ++ extractSpec rest := by
  rw [extractSpec.eq_def]

theorem extractAux_foldl : ∀ (kvs : List (String × InfoVal))
    (res : List (String × ℚ)), subWF kvs = true →
    extractAux res kvs = List.foldl insertEntry res (extractSpec kvs)
  | [], res, _ => by rw [extractAux_nil, extractSpec_nil]; rfl
  | (k, v) :: rest, res, h => by
      rw [extractAux_cons, extractSpec_cons]
      by_cases hk : k ∈ METRICS_BLACKLIST
      · have hrest : subWF rest = true := by
          cases v <;> simp [subWF] at h <;> tauto
        rw [if_pos hk, if_pos hk, List.nil_append,
          extractAux_foldl rest res hrest]
      · rw [if_neg hk, if_neg hk]
        cases v with
        | dict sub =>
            have hparts : (((extractSpec sub).map Prod.fst).Nodup) ∧
                subWF sub = true ∧ subWF rest = true := by
              simp [subWF] at h
              tauto
            have hsub : extract_scalars_from_info sub = extractSpec sub := by
              rw [extract_scalars_from_info,
                extractAux_foldl sub [] hparts.2.1,
                foldl_insertEntry_of_fresh _ _ (by simp) hparts.1,
                List.nil_append]
            simp only [hsub]
            rw [extractAux_foldl rest _ hparts.2.2, ← List.foldl_append]
        | scalar x =>
            have hrest : subWF rest = true := by simpa [subWF] using h
            simp only [scalarLike]
            rw [extractAux_foldl rest _ hrest]
            rfl
        | str s =>
            have hrest : subWF rest = true := by simpa [subWF] using h
            simp only [scalarLike]
            rw [extractAux_foldl rest _ hrest]
            rfl
        | arr xs =>
            have hrest : subWF rest = true := by simpa [subWF] using h
            match xs with
            | [] =>
                simp only [scalarLike]
                rw [extractAux_foldl rest _ hrest]
                rfl
            | [x] =>
                simp only [scalarLike]
                rw [extractAux_foldl rest _ hrest]
                rfl
            | x :: y :: tl =>
                simp only [scalarLike]
                rw [extractAux_foldl rest _ hrest]
                rfl
  termination_by kvs => sizeOf kvs

theorem extractSpec_keys (kvs : List (String × InfoVal)) :
    ∀ p ∈ extractSpec kvs, p.1 ∉ METRICS_BLACKLIST := by
  induction kvs with
  | nil => rw [extractSpec_nil]; intro p hp; cases hp
  | cons kv rest ih =>
      obtain ⟨k, v⟩ := kv
      rw [extractSpec_cons]
      intro p hp
      rcases List.mem_append.mp hp with h1 | h2
      · by_cases hk : k ∈ METRICS_BLACKLIST
        · rw [if_pos hk] at h1; cases h1
        · rw [if_neg hk] at h1
          cases v with
          | dict sub =>
              simp only [List.mem_filterMap] at h1
              obtain ⟨q, hq, hq2⟩ := h1
              split at hq2
              · cases hq2
              · next hbl =>
                  cases hq2
                  exact hbl
          | scalar x =>
              simp only [scalarLike] at h1
              rcases List.mem_singleton.mp h1 with rfl
              exact hk
          | str s => simp [scalarLike] at h1
          | arr xs =>
              match xs with
              | [] => simp [scalarLike] at h1
              | [x] =>
                  simp only [scalarLike] at h1
                  rcases List.mem_singleton.mp h1 with rfl
                  exact hk
              | x :: y :: tl => simp [scalarLike] at h1
      · exact ih p h2

/-- C9: on every collision-free info dictionary,
`_extract_scalars_from_info` returns exactly the blacklist-filtered fields
that reduce to a single numeric value: it equals the declarative spec-side
extraction that recurses into nested mapping-valued fields
joining keys with `.`; no returned key (bare or joined) is in the metrics
blacklist; and a non-mapping value is included if and only if its numpy
size is 1 and it is not a string.  The function is total — unseen keys
cannot make it raise. -/
theorem extract_scalars_spec (kvs : List (String × InfoVal))
    (h : wfInfo kvs = true) :
    extract_scalars_from_info kvs = extractSpec kvs ∧
    (∀ p ∈ extract_scalars_from_info kvs, p.1 ∉ METRICS_BLACKLIST) ∧
    (∀ v : InfoVal, v.isDict = false →
      ((scalarLike v).isSome ↔ (npSize v = 1 ∧ v.isStr = false))) := by
  simp only [wfInfo, Bool.and_eq_true, decide_eq_true_eq] at h
  have h1 : extract_scalars_from_info kvs = extractSpec kvs := by
    rw [extract_scalars_from_info, extractAux_foldl kvs [] h.2,
      foldl_insertEntry_of_fresh _ _ (by simp) h.1, List.nil_append]
  refine ⟨h1, ?_, ?_⟩
  · rw [h1]
    exact extractSpec_keys kvs
  · intro v hv
    cases v with
    | scalar x => simp [scalarLike, npSize, InfoVal.isStr]
    | str s => simp [scalarLike, npSize, InfoVal.isStr]
    | dict sub => simp [InfoVal.isDict] at hv
    | arr xs =>
        match xs with
        | [] => simp [scalarLike, npSize, InfoVal.isStr]
        | [x] => simp [scalarLike, npSize, InfoVal.isStr]
        | x :: y :: tl => simp [scalarLike, npSize, InfoVal.isStr]

/-- A concrete nested info dictionary exercising the blacklist at both the
bare and the joined level, a string, a singleton array and a size-2
array. -/
def demoInfo : List (String × InfoVal) :=
  [("a", .scalar 3), ("top_down_map", .scalar 1),
   ("c", .dict [("is_collision", .scalar 2), ("d", .str "x")]),
   ("collisions", .dict [("is_collision", .scalar 5), ("d", .arr [7])]),
   ("e", .arr [1, 2])]

/-- Closed witness for `extract_scalars_spec`, evaluated on `demoInfo`. -/
theorem extract_scalars_spec_witness :
    extract_scalars_from_info demoInfo = extractSpec demoInfo ∧
    extractSpec demoInfo =
      [("a", 3), ("c.is_collision", 2), ("collisions.d", 7)] := by
  have hwf : wfInfo demoInfo = true := by
    simp [wfInfo, subWF, demoInfo, extractSpec_cons, extractSpec_nil,
      scalarLike, METRICS_BLACKLIST]
  refine ⟨(extract_scalars_spec demoInfo hwf).1, ?_⟩
  simp [demoInfo, extractSpec_cons, extractSpec_nil, scalarLike,
    METRICS_BLACKLIST]

end PPOTrainerModel
